import Mathlib

/-!
Shallow embedding of the PS1-style software rasterizer
(src/wasm/rasterizer.cpp) and proofs about its specification claims.

Modelling conventions:
* IEEE-754 `float` arithmetic is idealized as exact rational arithmetic (ℚ).
  `sqrtf` has no rational counterpart, so every definition that needs it takes
  an uninterpreted parameter `sq : ℚ → ℚ`; theorems quantify over `sq`.
* C integer types are modelled as `Int`/`Nat`; float-to-integer casts truncate
  toward zero (`ftrunc`), with the unsigned wrap of out-of-range values made
  explicit via `emod`.
* Global mutable buffers become function-typed fields of explicit state
  records; loops become `List.foldl` over `List.range`.
* The SIMD fast path of `rasterize_triangle` computes, lane by lane, the same
  arithmetic as the scalar tail (the two differ only in float evaluation
  order, which is invisible over ℚ), so the per-pixel body is embedded once.
* `get_processed_vertex` memoizes the pure `process_vertex` for a frame in
  which all inputs are fixed, so the lookup is observationally identical to
  calling `process_vertex`; the embedding inlines the call.
-/

set_option maxRecDepth 10000

namespace PS1

/-- Truncation of a rational toward zero, as C float-to-integer casts behave
for in-range values. -/
def ftrunc (q : ℚ) : Int :=
if q < 0 then -(Int.floor (-q)) else Int.floor q

/-- C cast of a float value to `uint16_t`: truncation toward zero, reduced
mod 2^16 (two's-complement storage of out-of-range values). -/
def u16ofQ (q : ℚ) : Nat :=
((ftrunc q) % 65536).toNat

/-- C cast of a float value to `uint8_t`: truncation toward zero, reduced
mod 2^8. -/
def u8ofQ (q : ℚ) : Nat :=
((ftrunc q) % 256).toNat

/-- C cast of a clamped nonnegative float color channel to `uint32_t`. -/
def u32ofQ (q : ℚ) : Nat :=
(ftrunc q).toNat

/-- Low byte of an `int32_t` lane, as the C cast to `uint8_t`. -/
def byteOfInt (n : Int) : Nat :=
((n % 256)).toNat

/-- Result of `floorf`, kept in ℚ. -/
def floorQ (q : ℚ) : ℚ :=
((Int.floor q : Int) : ℚ)

/-- Vector of three floats (struct Vec3). -/
structure Vec3 where
  x : ℚ
  y : ℚ
  z : ℚ

/-- Vector of four floats (struct Vec4). -/
structure Vec4 where
  x : ℚ
  y : ℚ
  z : ℚ
  w : ℚ

/-- Componentwise difference, Vec3::operator-. -/
def vsub (a b : Vec3) : Vec3 :=
⟨a.x - b.x, a.y - b.y, a.z - b.z⟩

/-- Scalar multiple, Vec3::operator*. -/
def vsmul (a : Vec3) (s : ℚ) : Vec3 :=
⟨a.x * s, a.y * s, a.z * s⟩

/-- Dot product, Vec3::dot. -/
def vdot (a b : Vec3) : ℚ :=
a.x * b.x + a.y * b.y + a.z * b.z

/-- Cross product, Vec3::cross. -/
def vcross (a b : Vec3) : Vec3 :=
⟨a.y * b.z - a.z * b.y, a.z * b.x - a.x * b.z, a.x * b.y - a.y * b.x⟩

/-- Vec3::length, with `sqrtf` supplied as the uninterpreted `sq`. -/
def vlength (sq : ℚ → ℚ) (a : Vec3) : ℚ :=
sq (a.x * a.x + a.y * a.y + a.z * a.z)

/-- Vec3::normalize: the zero vector when the length is below 1e-4, otherwise
the scalar multiple by the reciprocal length. -/
def vnormalize (sq : ℚ → ℚ) (a : Vec3) : Vec3 :=
if vlength sq a < 1 / 10000 then ⟨0, 0, 0⟩ else vsmul a (1 / vlength sq a)

/-- Row-major 4x4 matrix times vector, mat4_mul_vec4. -/
def matMulVec4 (m : Nat → ℚ) (v : Vec4) : Vec4 :=
⟨m 0 * v.x + m 1 * v.y + m 2 * v.z + m 3 * v.w,
 m 4 * v.x + m 5 * v.y + m 6 * v.z + m 7 * v.w,
 m 8 * v.x + m 9 * v.y + m 10 * v.z + m 11 * v.w,
 m 12 * v.x + m 13 * v.y + m 14 * v.z + m 15 * v.w⟩

/-- Direction transform (translation dropped), mat4_mul_dir. -/
def matMulDir (m : Nat → ℚ) (v : Vec3) : Vec3 :=
⟨m 0 * v.x + m 1 * v.y + m 2 * v.z,
 m 4 * v.x + m 5 * v.y + m 6 * v.z,
 m 8 * v.x + m 9 * v.y + m 10 * v.z⟩

/-- Vec4::perspectiveDivide with its degenerate-w guard. -/
def perspectiveDivide (v : Vec4) : Vec3 :=
if |v.w| < 1 / 10000 then ⟨v.x, v.y, v.z⟩
else ⟨v.x * (1 / v.w), v.y * (1 / v.w), v.z * (1 / v.w)⟩

/-- Literal translation of min3 on floats (min3f). -/
def min3Q (a b c : ℚ) : ℚ :=
if a < b then (if a < c then a else c) else (if b < c then b else c)

/-- Literal translation of max3 on floats (max3f). -/
def max3Q (a b c : ℚ) : ℚ :=
if b < a then (if c < a then a else c) else (if c < b then b else c)

/-- Literal translation of min3 on int32 (min3). -/
def min3I (a b c : Int) : Int :=
if a < b then (if a < c then a else c) else (if b < c then b else c)

/-- Literal translation of max3 on int32 (max3). -/
def max3I (a b c : Int) : Int :=
if b < a then (if c < a then a else c) else (if c < b then b else c)

/-- Framebuffer state: the pixel word buffer g_pixels and the 16-bit depth
buffer g_depth, indexed by flat pixel index. -/
structure FB where
  pixels : Nat → Nat
  depth : Nat → Nat

/-- Write of one pixel word and its depth sample at index i. -/
def writePix (fb : FB) (i : Nat) (word d : Nat) : FB :=
⟨fun j => if j = i then word else fb.pixels j,
 fun j => if j = i then d else fb.depth j⟩

/-- Global state shared with the host: render resolution, input buffers,
matrices, light and the settings block of rasterizer.cpp. -/
structure GS where
  renderWidth : Int
  renderHeight : Int
  vertices : Nat → ℚ
  indices : Nat → Nat
  indexCount : Nat
  vertexCount : Nat
  mvp : Nat → ℚ
  model : Nat → ℚ
  lightDirX : ℚ
  lightDirY : ℚ
  lightDirZ : ℚ
  lightIntensity : ℚ
  ambientLight : ℚ
  currentTexture : Int
  enableLighting : Bool
  enableDithering : Bool
  enableTexturing : Bool
  enableBackfaceCulling : Bool
  enableVertexSnapping : Bool
  enableSmoothShading : Bool
  snapResolutionX : ℚ
  snapResolutionY : ℚ
  textures : Int → Nat → Nat
  textureSizes : Int → Int

/-- Light direction vector assembled from g_light_dir. -/
def lightDirOf (gs : GS) : Vec3 :=
⟨gs.lightDirX, gs.lightDirY, gs.lightDirZ⟩

/-- Light scalar computed at the end of process_vertex: 1 when lighting is
off, otherwise min(1, ambient + max(0, -n.l) * intensity). -/
def lightScalar (gs : GS) (worldNormal : Vec3) : ℚ :=
if gs.enableLighting then
  min 1 (gs.ambientLight + max 0 (-(vdot worldNormal (lightDirOf gs))) * gs.lightIntensity)
else 1

/-- World-space unit normal of a source vertex, as computed inside
process_vertex. -/
def worldNormalAt (sq : ℚ → ℚ) (gs : GS) (idx : Nat) : Vec3 :=
vnormalize sq (matMulDir gs.model
  ⟨gs.vertices (idx * 12 + 3), gs.vertices (idx * 12 + 4), gs.vertices (idx * 12 + 5)⟩)

/-- Processed vertex, the output record of process_vertex. -/
structure PV where
  screen : Vec3
  world : Vec3
  normal : Vec3
  depth : ℚ
  u : ℚ
  v : ℚ
  r : ℚ
  g : ℚ
  b : ℚ
  affine : ℚ
  light : ℚ

/-- Translation of process_vertex: MVP transform, perspective divide,
optional vertex snapping, viewport transform, world normal and position,
affine factor and precomputed light scalar. -/
def processVertex (sq : ℚ → ℚ) (gs : GS) (idx : Nat) : PV :=
  let px := gs.vertices (idx * 12)
  let py := gs.vertices (idx * 12 + 1)
  let pz := gs.vertices (idx * 12 + 2)
  let u := gs.vertices (idx * 12 + 6)
  let vt := gs.vertices (idx * 12 + 7)
  let r := gs.vertices (idx * 12 + 8)
  let g := gs.vertices (idx * 12 + 9)
  let b := gs.vertices (idx * 12 + 10)
  let clip := matMulVec4 gs.mvp ⟨px, py, pz, 1⟩
  let ndc0 := perspectiveDivide clip
  let ndc : Vec3 :=
    if gs.enableVertexSnapping then
      ⟨floorQ (ndc0.x * gs.snapResolutionX) / gs.snapResolutionX,
       floorQ (ndc0.y * gs.snapResolutionY) / gs.snapResolutionY, ndc0.z⟩
    else ndc0
  let screenX := (ndc.x + 1) * (1 / 2) * (gs.renderWidth : ℚ)
  let screenY := (1 - ndc.y) * (1 / 2) * (gs.renderHeight : ℚ)
  let wn := worldNormalAt sq gs idx
  let worldPos := matMulVec4 gs.model ⟨px, py, pz, 1⟩
  let dist := max (1 / 1000) clip.w
  let affine := dist + clip.w * 8 / dist * (1 / 2)
  { screen := ⟨screenX, screenY, ndc.z⟩
    world := ⟨worldPos.x, worldPos.y, worldPos.z⟩
    normal := wn
    depth := ndc.z
    u := u * affine
    v := vt * affine
    r := r
    g := g
    b := b
    affine := affine
    light := lightScalar gs wn }

/-- Per-triangle constants of rasterize_triangle: resolution, the three
processed vertices, the signed inverse area, the light-premultiplied vertex
colors and the texture binding. -/
structure TriCtx where
  width : Int
  height : Int
  v0 : PV
  v1 : PV
  v2 : PV
  invArea : ℚ
  r0 : ℚ
  g0 : ℚ
  b0 : ℚ
  r1 : ℚ
  g1 : ℚ
  b1 : ℚ
  r2 : ℚ
  g2 : ℚ
  b2 : ℚ
  useTex : Bool
  texW : Int
  texH : Int
  texData : Nat → Nat

/-- Inside test of the rasterizer: all three edge values nonnegative or all
three nonpositive. -/
def insideEdges (w0 w1 w2 : ℚ) : Prop :=
(0 ≤ w0 ∧ 0 ≤ w1 ∧ 0 ≤ w2) ∨ (w0 ≤ 0 ∧ w1 ≤ 0 ∧ w2 ≤ 0)

instance (w0 w1 w2 : ℚ) : Decidable (insideEdges w0 w1 w2) := by
  unfold insideEdges; infer_instance

/-- Interpolated depth packed to u16: (depthF + 1) * 32767.5 cast to
uint16_t, with depthF the barycentric blend of the vertex NDC depths. -/
def interpDepthU16 (c : TriCtx) (w0 w1 w2 : ℚ) : Nat :=
  let bw0 := w0 * c.invArea
  let bw1 := w1 * c.invArea
  let bw2 := w2 * c.invArea
  u16ofQ ((c.v0.depth * bw0 + c.v1.depth * bw1 + c.v2.depth * bw2 + 1) * (65535 / 2))

/-- Packed pixel word 0xFF000000 | (b << 16) | (g << 8) | r for channel
values already clamped to [0, 255]. -/
def packWord (r g b : ℚ) : Nat :=
4278190080 + u32ofQ b * 65536 + u32ofQ g * 256 + u32ofQ r

/-- Untextured color path of the rasterizer inner loop: barycentric blend of
the light-premultiplied vertex colors, clamped to [0, 255], packed. -/
def flatColorWord (c : TriCtx) (bw0 bw1 bw2 : ℚ) : Nat :=
  let cr := min 255 (max 0 (c.r0 * bw0 + c.r1 * bw1 + c.r2 * bw2))
  let cg := min 255 (max 0 (c.g0 * bw0 + c.g1 * bw1 + c.g2 * bw2))
  let cb := min 255 (max 0 (c.b0 * bw0 + c.b1 * bw1 + c.b2 * bw2))
  packWord cr cg cb

/-- Textured color path: affine-divided UV, wrap, texel fetch, modulation by
the interpolated lit vertex color over 255, clamp, pack. -/
def texColorWord (c : TriCtx) (bw0 bw1 bw2 : ℚ) : Nat :=
  let uAffine := c.v0.u * bw0 + c.v1.u * bw1 + c.v2.u * bw2
  let vAffine := c.v0.v * bw0 + c.v1.v * bw1 + c.v2.v * bw2
  let affine := c.v0.affine * bw0 + c.v1.affine * bw1 + c.v2.affine * bw2
  let tu0 := uAffine / affine
  let tv0 := vAffine / affine
  let tu := tu0 - floorQ tu0
  let tv := tv0 - floorQ tv0
  let tx0 := ftrunc (tu * (c.texW : ℚ))
  let ty0 := ftrunc ((1 - tv) * (c.texH : ℚ))
  let tx := ((tx0.tmod c.texW) + c.texW).tmod c.texW
  let ty := ((ty0.tmod c.texH) + c.texH).tmod c.texH
  let texOffset := ((ty * c.texW + tx) * 4).toNat
  let texR := (c.texData texOffset : ℚ)
  let texG := (c.texData (texOffset + 1) : ℚ)
  let texB := (c.texData (texOffset + 2) : ℚ)
  let litR := c.r0 * bw0 + c.r1 * bw1 + c.r2 * bw2
  let litG := c.g0 * bw0 + c.g1 * bw1 + c.g2 * bw2
  let litB := c.b0 * bw0 + c.b1 * bw1 + c.b2 * bw2
  let cr := min 255 (max 0 (texR * litR / 255))
  let cg := min 255 (max 0 (texG * litG / 255))
  let cb := min 255 (max 0 (texB * litB / 255))
  packWord cr cg cb

/-- Body of the rasterizer inner loop for one pixel: inside test, depth
computation, strict depth test, color computation and write-back.  The SIMD
fast path performs the same lane arithmetic as this scalar body. -/
def pixelStep (c : TriCtx) (x y : Int) (w0 w1 w2 : ℚ) (fb : FB) : FB :=
  if insideEdges w0 w1 w2 then
    let i := (y * c.width + x).toNat
    let d := interpDepthU16 c w0 w1 w2
    if d < fb.depth i then
      let bw0 := w0 * c.invArea
      let bw1 := w1 * c.invArea
      let bw2 := w2 * c.invArea
      let word := if c.useTex then texColorWord c bw0 bw1 bw2 else flatColorWord c bw0 bw1 bw2
      writePix fb i word d
    else fb
  else fb

/-- Translation of rasterize_triangle: clipped integer bounding box,
degenerate-area reject, per-pixel edge values and the double loop of
pixelStep.  The incremental per-row/per-column edge updates of the source are
written in closed form, which is exact over ℚ. -/
def rasterizeTriangle (gs : GS) (v0 v1 v2 : PV) (fb : FB) : FB :=
  let minX := max3I 0 (ftrunc (min3Q v0.screen.x v1.screen.x v2.screen.x)) 0
  let maxX := min3I (ftrunc (max3Q v0.screen.x v1.screen.x v2.screen.x) + 1)
      (gs.renderWidth - 1) (gs.renderWidth - 1)
  let minY := max3I 0 (ftrunc (min3Q v0.screen.y v1.screen.y v2.screen.y)) 0
  let maxY := min3I (ftrunc (max3Q v0.screen.y v1.screen.y v2.screen.y) + 1)
      (gs.renderHeight - 1) (gs.renderHeight - 1)
  if maxX < minX ∨ maxY < minY then fb
  else
    let x0 := v0.screen.x
    let y0 := v0.screen.y
    let x1 := v1.screen.x
    let y1 := v1.screen.y
    let x2 := v2.screen.x
    let y2 := v2.screen.y
    let a01 := y0 - y1
    let b01 := x1 - x0
    let a12 := y1 - y2
    let b12 := x2 - x1
    let a20 := y2 - y0
    let b20 := x0 - x2
    let area := a01 * (x2 - x0) + b01 * (y2 - y0)
    if |area| < 1 / 10000 then fb
    else
      let invArea := 1 / area
      let pxq := (minX : ℚ) + 1 / 2
      let pyq := (minY : ℚ) + 1 / 2
      let w0row := a12 * (pxq - x1) + b12 * (pyq - y1)
      let w1row := a20 * (pxq - x2) + b20 * (pyq - y2)
      let w2row := a01 * (pxq - x0) + b01 * (pyq - y0)
      let texIdx := gs.currentTexture
      let texBound := gs.enableTexturing = true ∧ 0 ≤ texIdx ∧ texIdx < 16
      let texW := if texBound then gs.textureSizes (texIdx * 2) else 0
      let texH := if texBound then gs.textureSizes (texIdx * 2 + 1) else 0
      let c : TriCtx :=
        { width := gs.renderWidth
          height := gs.renderHeight
          v0 := v0
          v1 := v1
          v2 := v2
          invArea := invArea
          r0 := v0.r * v0.light
          g0 := v0.g * v0.light
          b0 := v0.b * v0.light
          r1 := v1.r * v1.light
          g1 := v1.g * v1.light
          b1 := v1.b * v1.light
          r2 := v2.r * v2.light
          g2 := v2.g * v2.light
          b2 := v2.b * v2.light
          useTex := decide texBound && decide (0 < texW) && decide (0 < texH)
          texW := texW
          texH := texH
          texData := gs.textures texIdx }
      (List.range (maxY + 1 - minY).toNat).foldl (fun fbY (j : Nat) =>
        (List.range (maxX + 1 - minX).toNat).foldl (fun fbX (i : Nat) =>
          pixelStep c (minX + (i : Int)) (minY + (j : Int))
            (w0row + (j : ℚ) * b12 + (i : ℚ) * a12)
            (w1row + (j : ℚ) * b20 + (i : ℚ) * a20)
            (w2row + (j : ℚ) * b01 + (i : ℚ) * a01) fbX) fbY) fb

/-- Translation of the per-triangle body of render_triangles: near/far
reject, screen-space backface test and the lighting resolution (smooth or
flat, with the double-sided normal flip), then rasterization. -/
def processTriangle (sq : ℚ → ℚ) (gs : GS) (fb : FB) (tri : Nat × Nat × Nat) : FB :=
  let v0 := processVertex sq gs tri.1
  let v1 := processVertex sq gs tri.2.1
  let v2 := processVertex sq gs tri.2.2
  if v0.depth < -1 ∨ v1.depth < -1 ∨ v2.depth < -1 then fb
  else if 1 < v0.depth ∨ 1 < v1.depth ∨ 1 < v2.depth then fb
  else
    let e1 := vsub v1.screen v0.screen
    let e2 := vsub v2.screen v0.screen
    let crossZ := e1.x * e2.y - e1.y * e2.x
    let isBack : Bool := decide (0 ≤ crossZ)
    if gs.enableLighting then
      if gs.enableSmoothShading then
        let n0 := if isBack then vsmul v0.normal (-1) else v0.normal
        let n1 := if isBack then vsmul v1.normal (-1) else v1.normal
        let n2 := if isBack then vsmul v2.normal (-1) else v2.normal
        let l0 := min 1 (gs.ambientLight + max 0 (-(vdot n0 (lightDirOf gs))) * gs.lightIntensity)
        let l1 := min 1 (gs.ambientLight + max 0 (-(vdot n1 (lightDirOf gs))) * gs.lightIntensity)
        let l2 := min 1 (gs.ambientLight + max 0 (-(vdot n2 (lightDirOf gs))) * gs.lightIntensity)
        rasterizeTriangle gs
          { v0 with normal := n0, light := l0 }
          { v1 with normal := n1, light := l1 }
          { v2 with normal := n2, light := l2 } fb
      else
        let we1 := vsub v1.world v0.world
        let we2 := vsub v2.world v0.world
        let fn0 := vnormalize sq (vcross we1 we2)
        let fn := if isBack then vsmul fn0 (-1) else fn0
        let fl := min 1 (gs.ambientLight + max 0 (-(vdot fn (lightDirOf gs))) * gs.lightIntensity)
        rasterizeTriangle gs
          { v0 with light := fl } { v1 with light := fl } { v2 with light := fl } fb
    else rasterizeTriangle gs v0 v1 v2 fb

/-- Index triple of triangle t read from g_indices. -/
def triangleOfIndex (gs : GS) (t : Nat) : Nat × Nat × Nat :=
(gs.indices (3 * t), gs.indices (3 * t + 1), gs.indices (3 * t + 2))

/-- Triangle loop of render_triangles over an explicit triangle list. -/
def renderList (sq : ℚ → ℚ) (gs : GS) (tris : List (Nat × Nat × Nat)) (fb : FB) : FB :=
tris.foldl (processTriangle sq gs) fb

/-- Translation of render_triangles: iterates index_count / 3 triangles of
the index stream in order. -/
def renderTriangles (sq : ℚ → ℚ) (gs : GS) (fb : FB) : FB :=
renderList sq gs ((List.range (gs.indexCount / 3)).map (triangleOfIndex gs)) fb

/-- Resolution clamp of set_render_resolution to [1, 1920] x [1, 1200]. -/
def clampResolution (w h : Int) : Int × Int :=
  let w1 := if 1920 < w then 1920 else w
  let h1 := if 1200 < h then 1200 else h
  let w2 := if w1 < 1 then 1 else w1
  let h2 := if h1 < 1 then 1 else h1
  (w2, h2)

/-- Background pixel word of clear: alpha 0, then b, g, r bytes. -/
def clearColorWord (r g b : Nat) : Nat :=
b * 65536 + g * 256 + r

/-- Depth-buffer pass of clear: the memset of 0xFF over pixel_count 16-bit
samples, i.e. every active depth sample becomes 0xFFFF. -/
def clearDepthPass (pc : Nat) (fb : FB) : FB :=
(List.range pc).foldl
  (fun f i => ⟨f.pixels, fun j => if j = i then 65535 else f.depth j⟩) fb

/-- Pixel-buffer pass of clear: the SIMD fill loop plus scalar tail, which
together store the background word at every index below pixel_count. -/
def clearPixelPass (word pc : Nat) (fb : FB) : FB :=
(List.range pc).foldl
  (fun f i => ⟨fun j => if j = i then word else f.pixels j, f.depth⟩) fb

/-- Translation of clear(r, g, b) over the active pixel count. -/
def clearBuffers (r g b : Nat) (pc : Nat) (fb : FB) : FB :=
clearPixelPass (clearColorWord r g b) pc (clearDepthPass pc fb)

/-- Clip-space position of a point of render_points_batch. -/
def pointClip (mvp : Nat → ℚ) (vdata : Int → ℚ) (idx : Int) : Vec4 :=
matMulVec4 mvp ⟨vdata (idx * 6), vdata (idx * 6 + 1), vdata (idx * 6 + 2), 1⟩

/-- NDC position of a point of render_points_batch (plain division, no
degenerate guard, as in the source). -/
def pointNdc (mvp : Nat → ℚ) (vdata : Int → ℚ) (idx : Int) : Vec3 :=
  let c := pointClip mvp vdata idx
  ⟨c.x / c.w, c.y / c.w, c.z / c.w⟩

/-- Depth value of a point splat: (ndc.z + 1) * 0.5 * 65534 cast to uint16_t,
then biased down by one (clamped at zero). -/
def pointDepthVal (z : ℚ) : Nat :=
  let dv := u16ofQ ((z + 1) * (1 / 2) * 65534)
  if 1 < dv then dv - 1 else 0

/-- Modelled from the spec: the spec states the point depth mapping as
u16 = max(0, round((ndc.z + 1) * 0.5 * 65534) - 1), with rounding rather
than the C truncating cast; kept for comparison against pointDepthVal. -/
def specPointDepth (z : ℚ) : Nat :=
(max 0 (round ((z + 1) * (1 / 2) * 65534) - 1)).toNat

/-- Square fill with per-pixel strict depth test, the inner double loop of
render_points_batch. -/
def squareDepthTested (w h cx cy half : Int) (color dv : Nat) (fb : FB) : FB :=
(List.range (2 * half + 1).toNat).foldl (fun fbY (jy : Nat) =>
  (List.range (2 * half + 1).toNat).foldl (fun fbX (jx : Nat) =>
    let sx := cx + (-half + (jx : Int))
    let sy := cy + (-half + (jy : Int))
    if 0 ≤ sx ∧ sx < w ∧ 0 ≤ sy ∧ sy < h then
      let i := (sy * w + sx).toNat
      if dv < fbX.depth i then writePix fbX i color dv else fbX
    else fbX) fbY) fb

/-- Unconditional square fill of render_point: color stored and depth forced
to 0 at every in-bounds pixel of the square, no depth test. -/
def squareOverlay (w h cx cy half : Int) (color : Nat) (fb : FB) : FB :=
(List.range (2 * half + 1).toNat).foldl (fun fbY (jy : Nat) =>
  (List.range (2 * half + 1).toNat).foldl (fun fbX (jx : Nat) =>
    let sx := cx + (-half + (jx : Int))
    let sy := cy + (-half + (jy : Int))
    if 0 ≤ sx ∧ sx < w ∧ 0 ≤ sy ∧ sy < h then
      writePix fbX ((sy * w + sx).toNat) color 0
    else fbX) fbY) fb

/-- Translation of render_point(screenX, screenY, color, pointSize). -/
def renderPoint (w h : Int) (x y : ℚ) (color : Nat) (size : Int) (fb : FB) : FB :=
squareOverlay w h (ftrunc x) (ftrunc y) (size.tdiv 2) color fb

/-- Body of the render_points_batch loop for a single point: MVP transform,
behind-camera and NDC rejects, viewport mapping, biased depth and the
depth-tested square fill. -/
def renderOnePoint (w h : Int) (mvp : Nat → ℚ) (size : Int) (vdata : Int → ℚ)
    (idx : Int) (fb : FB) : FB :=
  let clip := pointClip mvp vdata idx
  if clip.w < 1 / 10 then fb
  else
    let ndc := pointNdc mvp vdata idx
    if ndc.x < -1 ∨ 1 < ndc.x ∨ ndc.y < -1 ∨ 1 < ndc.y then fb
    else
      let screenX := ftrunc ((ndc.x + 1) * (1 / 2) * (w : ℚ))
      let screenY := ftrunc ((1 - ndc.y) * (1 / 2) * (h : ℚ))
      let dv := pointDepthVal ndc.z
      let r := u8ofQ (vdata (idx * 6 + 3))
      let g := u8ofQ (vdata (idx * 6 + 4))
      let b := u8ofQ (vdata (idx * 6 + 5))
      let color := 4278190080 + b * 65536 + g * 256 + r
      squareDepthTested w h screenX screenY (size.tdiv 2) color dv fb

/-- Translation of render_points_batch over indexCount points. -/
def renderPointsBatch (w h : Int) (vdata : Int → ℚ) (inds : Nat → Int)
    (count : Nat) (mvp : Nat → ℚ) (size : Int) (fb : FB) : FB :=
(List.range count).foldl (fun f i => renderOnePoint w h mvp size vdata (inds i) f) fb

/-- Row y of the 8x8 Bayer matrix DITHER_MATRIX. -/
def bayerRow (y : Nat) : List Int :=
match y with
| 0 => [0, 32, 8, 40, 2, 34, 10, 42]
| 1 => [48, 16, 56, 24, 50, 18, 58, 26]
| 2 => [12, 44, 4, 36, 14, 46, 6, 38]
| 3 => [60, 28, 52, 20, 62, 30, 54, 22]
| 4 => [3, 35, 11, 43, 1, 33, 9, 41]
| 5 => [51, 19, 59, 27, 49, 17, 57, 25]
| 6 => [15, 47, 7, 39, 13, 45, 5, 37]
| _ => [63, 31, 55, 23, 61, 29, 53, 21]

/-- Entry DITHER_MATRIX[y & 7][x & 7]. -/
def bayerEntry (y x : Nat) : Int :=
(bayerRow (y % 8)).getD (x % 8) 0

/-- Modelled from the spec: the ordered-dither quantization the spec ascribes
to the rasterizer pixel write (threshold = DITHER[y&7][x&7];
ditherAmt = (threshold - 32) >> 2; c = ((c + ditherAmt) >> 3) << 3, then
clamp to [0, 255]).  The source's rasterize_triangle computes the dither row
pointer but never applies this quantization. -/
def specDitherChannel (c : Int) (x y : Nat) : Int :=
  let threshold := bayerEntry y x
  let amt := (threshold - 32) / 4
  let q := (c + amt) / 8 * 8
  if q < 0 then 0 else if 255 < q then 255 else q

/-- Color value held in one lane of the baker stack: four int32 channels. -/
structure BCol where
  r : Int
  g : Int
  b : Int
  a : Int

/-- Default lane used when reading from an empty stack position. -/
def bcolZero : BCol :=
⟨0, 0, 0, 0⟩

/-- MIX_MULTIPLY lane op: (c1 * c2) >> 8 per channel (arithmetic shift). -/
def mixMultiply (c1 c2 : BCol) : BCol :=
⟨c1.r * c2.r / 256, c1.g * c2.g / 256, c1.b * c2.b / 256, c1.a * c2.a / 256⟩

/-- MIX_ADD lane op: min(255, c1 + (c2 * factor) >> 8) on r, g, b; alpha of
c1 is left unchanged, as in the source. -/
def mixAdd (f : Nat) (c1 c2 : BCol) : BCol :=
⟨min 255 (c1.r + c2.r * (f : Int) / 256),
 min 255 (c1.g + c2.g * (f : Int) / 256),
 min 255 (c1.b + c2.b * (f : Int) / 256), c1.a⟩

/-- MIX_LERP lane op: (c1 * (255 - factor) + c2 * factor) >> 8 on all four
channels. -/
def mixLerp (f : Nat) (c1 c2 : BCol) : BCol :=
⟨(c1.r * (255 - (f : Int)) + c2.r * (f : Int)) / 256,
 (c1.g * (255 - (f : Int)) + c2.g * (f : Int)) / 256,
 (c1.b * (255 - (f : Int)) + c2.b * (f : Int)) / 256,
 (c1.a * (255 - (f : Int)) + c2.a * (f : Int)) / 256⟩

/-- ALPHA_CUTOFF lane op: alpha becomes 255 when at least the threshold,
else 0; color channels unchanged. -/
def alphaCut (threshold : Nat) (c : BCol) : BCol :=
⟨c.r, c.g, c.b, if (threshold : Int) ≤ c.a then 255 else 0⟩

/-- Color ramp stop: position and RGBA bytes. -/
structure RStop where
  pos : Nat
  r : Nat
  g : Nat
  b : Nat
  a : Nat

/-- Decoding of stopCount ramp stops from the operand byte stream (missing
bytes of a truncated stream read as 0). -/
def parseStops (cnt : Nat) (l : List Nat) : List RStop :=
(List.range cnt).map (fun s =>
  ⟨l.getD (5 * s) 0, l.getD (5 * s + 1) 0, l.getD (5 * s + 2) 0,
   l.getD (5 * s + 3) 0, l.getD (5 * s + 4) 0⟩)

/-- Default ramp stop for out-of-range reads. -/
def rstopZero : RStop :=
⟨0, 0, 0, 0, 0⟩

/-- COLOR_RAMP lookup of the baker: find the surrounding stop pair (the
first adjacent pair enclosing pos, else the full range), clamp at the end
stops, otherwise interpolate with t = (pos - lowPos) * 255 / range and
combine with a right shift by 8. -/
def rampLookup (stops : List RStop) (pos : Int) : BCol :=
  let cnt := stops.length
  let found := (List.range (cnt - 1)).find? (fun s =>
    decide (((stops.getD s rstopZero).pos : Int) ≤ pos) &&
    decide (pos ≤ ((stops.getD (s + 1) rstopZero).pos : Int)))
  let lowIdx := match found with
    | some s => s
    | none => 0
  let highIdx := match found with
    | some s => s + 1
    | none => cnt - 1
  let low := stops.getD lowIdx rstopZero
  let high := stops.getD highIdx rstopZero
  if pos ≤ (low.pos : Int) then ⟨low.r, low.g, low.b, low.a⟩
  else if (high.pos : Int) ≤ pos then ⟨high.r, high.g, high.b, high.a⟩
  else
    let range := (high.pos : Int) - (low.pos : Int)
    let t := ((pos - (low.pos : Int)) * 255).tdiv range
    let invT := 255 - t
    ⟨((low.r : Int) * invT + (high.r : Int) * t) / 256,
     ((low.g : Int) * invT + (high.g : Int) * t) / 256,
     ((low.b : Int) * invT + (high.b : Int) * t) / 256,
     ((low.a : Int) * invT + (high.a : Int) * t) / 256⟩

/-- Pop-two-push-one stack transform shared by the MIX ops; the stack list is
bottom-first, so the top is the last element.  A stack of fewer than two
entries is left unchanged (underflow skip). -/
def popPush2 (f : BCol → BCol → BCol) (s : List BCol) : List BCol :=
if 2 ≤ s.length then
  s.dropLast.dropLast ++ [f ((s.dropLast.getLast?).getD bcolZero) ((s.getLast?).getD bcolZero)]
else s

/-- In-place top-of-stack transform used by COLOR_RAMP and ALPHA_CUTOFF. -/
def replaceTop (f : BCol → BCol) (s : List BCol) : List BCol :=
if 1 ≤ s.length then s.dropLast ++ [f ((s.getLast?).getD bcolZero)] else s

/-- Cell hash of the baker: uint32(cx * 374761393 + cy * 668265263) followed
by h = (h ^ (h >> 13)) * 1274126177, all mod 2^32. -/
def hashCell (cx cy : Int) : Nat :=
  let h0 := ((cx * 374761393 + cy * 668265263) % 4294967296).toNat
  ((h0 ^^^ (h0 >>> 13)) * 1274126177) % 4294967296

/-- LCG step used for the second Voronoi jitter coordinate. -/
def lcgNext (h : Nat) : Nat :=
(h * 1103515245 + 12345) % 4294967296

/-- Distance from the sample to the jittered feature point of one cell,
with sqrtf as the uninterpreted sq. -/
def voronoiCellDist (sq : ℚ → ℚ) (pu pv : ℚ) (cx cy : Int) : ℚ :=
  let h := hashCell cx cy
  let rx := ((h % 65536 : Nat) : ℚ) / 65535
  let ry := ((lcgNext h % 65536 : Nat) : ℚ) / 65535
  let ddx := pu - ((cx : ℚ) + rx)
  let ddy := pv - ((cy : ℚ) + ry)
  sq (ddx * ddx + ddy * ddy)

/-- BAKE_OP_VORONOI lane value: 3x3 cell search tracking F1 and F2, mode 0
mapping F1 * 1.4 and mode 1 mapping 1 - (F2 - F1) * 2, scaled to a byte. -/
def voronoiVal (sq : ℚ → ℚ) (scaleByte mode : Nat) (u v : ℚ) : Int :=
  let scale : ℚ := if ((scaleByte : ℚ)) < 1 then 1 else (scaleByte : ℚ)
  let pu := u * scale
  let pv := v * scale
  let cellX := Int.floor pu
  let cellY := Int.floor pv
  let f := (List.range 3).foldl (fun (st : ℚ × ℚ) (jy : Nat) =>
    (List.range 3).foldl (fun (st : ℚ × ℚ) (jx : Nat) =>
      let d := voronoiCellDist sq pu pv (cellX + (-1 + (jx : Int))) (cellY + (-1 + (jy : Int)))
      if d < st.1 then (d, st.1) else if d < st.2 then (st.1, d) else st) st)
    (10000000000, 10000000000)
  let outVal : ℚ :=
    if mode = 1 then
      let o := 1 - (f.2 - f.1) * 2
      if o < 0 then 0 else if 1 < o then 1 else o
    else
      let o := f.1 * (7 / 5)
      if 1 < o then 1 else o
  let val := ftrunc (outVal * 255)
  if 255 < val then 255 else if val < 0 then 0 else val

/-- Corner hash of the noise op reduced to a byte (gradient mode). -/
def noiseHashByte (x y : Int) : Nat :=
hashCell x y % 256

/-- Corner hash of the noise op reduced to [0, 1] (value mode). -/
def noiseHashQ (x y : Int) : ℚ :=
((hashCell x y % 65536 : Nat) : ℚ) / 65535

/-- Gradient function of the simplex-like noise branch. -/
def gradAt (hash : Nat) (x y : ℚ) : ℚ :=
  let h := hash % 8
  let ug := if h < 4 then x else y
  let vg := if h < 4 then y else x
  (if h % 2 = 1 then -ug else ug) + (if h / 2 % 2 = 1 then -(2 * vg) else 2 * vg)

/-- Smoothstep interpolant f * f * (3 - 2 * f). -/
def smoothInterp (f : ℚ) : ℚ :=
f * f * (3 - 2 * f)

/-- One octave of BAKE_OP_NOISE at a given frequency-scaled position; the
gradient mode includes its 0.5-shift, the value mode is the raw bilinear
blend of corner hashes. -/
def noiseOctave (mode : Nat) (nx ny : ℚ) : ℚ :=
  let ix := Int.floor nx
  let iy := Int.floor ny
  let fx := nx - ((ix : Int) : ℚ)
  let fy := ny - ((iy : Int) : ℚ)
  let ui := smoothInterp fx
  let vi := smoothInterp fy
  if mode = 1 then
    let n00 := gradAt (noiseHashByte ix iy) fx fy
    let n10 := gradAt (noiseHashByte (ix + 1) iy) (fx - 1) fy
    let n01 := gradAt (noiseHashByte ix (iy + 1)) fx (fy - 1)
    let n11 := gradAt (noiseHashByte (ix + 1) (iy + 1)) (fx - 1) (fy - 1)
    let nx0 := n00 + ui * (n10 - n00)
    let nx1 := n01 + ui * (n11 - n01)
    (nx0 + vi * (nx1 - nx0)) * (1 / 2) + 1 / 2
  else
    let n00 := noiseHashQ ix iy
    let n10 := noiseHashQ (ix + 1) iy
    let n01 := noiseHashQ ix (iy + 1)
    let n11 := noiseHashQ (ix + 1) (iy + 1)
    let nx0 := n00 + ui * (n10 - n00)
    let nx1 := n01 + ui * (n11 - n01)
    nx0 + vi * (nx1 - nx0)

/-- BAKE_OP_NOISE lane value: fBm over the clamped octave count with halving
amplitude and doubling frequency, normalized and scaled to a byte. -/
def noiseVal (scaleByte octavesByte mode : Nat) (u v : ℚ) : Int :=
  let scale : ℚ := if ((scaleByte : ℚ)) < 1 then 1 else (scaleByte : ℚ)
  let octaves := if octavesByte < 1 then 1 else if 8 < octavesByte then 8 else octavesByte
  let px := u * scale
  let py := v * scale
  let st := (List.range octaves).foldl (fun (s : ℚ × ℚ × ℚ × ℚ) _ =>
    let octv := noiseOctave mode (px * s.2.2.1) (py * s.2.2.1)
    (s.1 + octv * s.2.1, s.2.1 * (1 / 2), s.2.2.1 * 2, s.2.2.2 + s.2.1))
    (0, 1, 1, 0)
  let nv := st.1 / st.2.2.2
  let val := ftrunc (nv * 255)
  if 255 < val then 255 else if val < 0 then 0 else val

/-- BAKE_OP_SAMPLE_TEXTURE with a bound source: truncate UV against the
source size, wrap with the positive-biased modulo, fetch the texel bytes. -/
def sampleTexture (srcW srcH : Int) (srcTex : Nat → Nat) (u v : ℚ) : BCol :=
  let tx := ftrunc (u * (srcW : ℚ))
  let ty := ftrunc ((1 - v) * (srcH : ℚ))
  let txi0 := tx.tmod srcW
  let tyi0 := ty.tmod srcH
  let txi := if txi0 < 0 then txi0 + srcW else txi0
  let tyi := if tyi0 < 0 then tyi0 + srcH else tyi0
  let tidx := ((tyi * srcW + txi) * 4).toNat
  ⟨srcTex tidx, srcTex (tidx + 1), srcTex (tidx + 2), srcTex (tidx + 3)⟩

/-- Checkerboard fallback of BAKE_OP_SAMPLE_TEXTURE: magenta/black 8x8
pattern from the truncated UV cell parity. -/
def checkerboard (u v : ℚ) : BCol :=
  let cui := ftrunc (u * 8)
  let cvi := ftrunc (v * 8)
  if (cui + cvi) % 2 = 1 then ⟨255, 0, 255, 255⟩ else ⟨0, 0, 0, 255⟩

/-- Interpreter loop of bake_material for one lane: decodes the opcode
stream, maintains the bottom-first color stack and terminates at
BAKE_OP_END, at any unknown opcode (the switch default) or at the end of the
stream. -/
def runBake (sq : ℚ → ℚ) (srcOn : Bool) (srcW srcH : Int) (srcTex : Nat → Nat)
    (u v : ℚ) (prog : List Nat) (s : List BCol) : List BCol :=
  match prog with
  | [] => s
  | 0 :: rest =>
    match rest with
    | r :: g :: b :: a :: rest2 =>
      runBake sq srcOn srcW srcH srcTex u v rest2 (s ++ [⟨(r : Int), (g : Int), (b : Int), (a : Int)⟩])
    | _ => s
  | 1 :: rest =>
    let c := if srcOn then sampleTexture srcW srcH srcTex u v else checkerboard u v
    runBake sq srcOn srcW srcH srcTex u v rest (s ++ [c])
  | 2 :: rest =>
    match rest with
    | _f :: rest2 => runBake sq srcOn srcW srcH srcTex u v rest2 (popPush2 mixMultiply s)
    | [] => s
  | 3 :: rest =>
    match rest with
    | f :: rest2 => runBake sq srcOn srcW srcH srcTex u v rest2 (popPush2 (mixAdd f) s)
    | [] => s
  | 4 :: rest =>
    match rest with
    | f :: rest2 => runBake sq srcOn srcW srcH srcTex u v rest2 (popPush2 (mixLerp f) s)
    | [] => s
  | 5 :: rest =>
    match rest with
    | n :: rest2 =>
      let cnt := if 16 < n then 16 else n
      let stops := parseStops cnt (rest2.take (5 * cnt))
      let s2 := if 0 < cnt then
          replaceTop (fun c => rampLookup stops c.r) s
        else s
      runBake sq srcOn srcW srcH srcTex u v (rest2.drop (5 * cnt)) s2
    | [] => s
  | 6 :: rest =>
    match rest with
    | sc :: m :: rest2 =>
      let g := voronoiVal sq sc m u v
      runBake sq srcOn srcW srcH srcTex u v rest2 (s ++ [⟨g, g, g, 255⟩])
    | _ => s
  | 7 :: rest =>
    match rest with
    | th :: rest2 => runBake sq srcOn srcW srcH srcTex u v rest2 (replaceTop (alphaCut th) s)
    | [] => s
  | 8 :: rest =>
    match rest with
    | sc :: oc :: m :: rest2 =>
      let g := noiseVal sc oc m u v
      runBake sq srcOn srcW srcH srcTex u v rest2 (s ++ [⟨g, g, g, 255⟩])
    | _ => s
  | _ :: _ => s
termination_by prog.length
decreasing_by all_goals (simp [List.length_drop]; try omega)

/-- Bake state shared with the host: output size, source slot, the texture
pool and the compiled program bytes. -/
structure BakeGS where
  bakeWidth : Int
  bakeHeight : Int
  bakeSource : Int
  textures : Int → Nat → Nat
  textureSizes : Int → Int
  program : List Nat

/-- Source texture width resolved by bake_material for a valid slot. -/
def bakeSrcW (b : BakeGS) : Int :=
if 0 ≤ b.bakeSource ∧ b.bakeSource < 16 then b.textureSizes (b.bakeSource * 2) else 0

/-- Source texture height resolved by bake_material for a valid slot. -/
def bakeSrcH (b : BakeGS) : Int :=
if 0 ≤ b.bakeSource ∧ b.bakeSource < 16 then b.textureSizes (b.bakeSource * 2 + 1) else 0

/-- Presence of a usable source texture: valid slot with positive size. -/
def bakeSrcOn (b : BakeGS) : Bool :=
decide (0 ≤ b.bakeSource ∧ b.bakeSource < 16) && decide (0 < bakeSrcW b) && decide (0 < bakeSrcH b)

/-- Final stack of the bake program at UV (u, v). -/
def bakeStack (sq : ℚ → ℚ) (b : BakeGS) (u v : ℚ) : List BCol :=
runBake sq (bakeSrcOn b) (bakeSrcW b) (bakeSrcH b) (b.textures b.bakeSource) u v b.program []

/-- Output selection of bake_material: stack entry 0 (the bottom) as four
bytes, or the magenta error color when the stack is empty. -/
def bakePixelOut (stack : List BCol) : Nat × Nat × Nat × Nat :=
  match stack with
  | [] => (255, 0, 255, 255)
  | c :: _ => (byteOfInt c.r, byteOfInt c.g, byteOfInt c.b, byteOfInt c.a)

/-- RGBA bytes written by bake_material at output pixel (x, y): the program
is run at u = (x + 0.5) / width, v = 1 - (y + 0.5) / height.  The SIMD
groups of four pixels evaluate these per-lane values independently. -/
def bakeMaterialPixel (sq : ℚ → ℚ) (b : BakeGS) (x y : Nat) : Nat × Nat × Nat × Nat :=
  let u := ((x : ℚ) + 1 / 2) * (1 / (b.bakeWidth : ℚ))
  let v := 1 - ((y : ℚ) + 1 / 2) / (b.bakeHeight : ℚ)
  bakePixelOut (bakeStack sq b u v)

/-- Lane color built from an RGBA byte quadruple. -/
def bcolOfBytes (c : Nat × Nat × Nat × Nat) : BCol :=
⟨(c.1 : Int), (c.2.1 : Int), (c.2.2.1 : Int), (c.2.2.2 : Int)⟩

/-- Program consisting of one FLAT_COLOR instruction per listed color. -/
def flatColorProg : List (Nat × Nat × Nat × Nat) → List Nat
| [] => []
| c :: cs => 0 :: c.1 :: c.2.1 :: c.2.2.1 :: c.2.2.2 :: flatColorProg cs

/-- Placeholder square root returning 0, usable wherever no claim depends on
the value of sqrtf. -/
def sqZero : ℚ → ℚ :=
fun _ => 0

/-- Freshly cleared-to-far framebuffer: zero pixels, depth 0xFFFF. -/
def fbFar : FB :=
⟨fun _ => 0, fun _ => 65535⟩

/-- Identity 4x4 matrix in the flat row-major layout. -/
def matIdentity : Nat → ℚ :=
fun n => if n = 0 ∨ n = 5 ∨ n = 10 ∨ n = 15 then 1 else 0

/-- All-zero 4x4 matrix. -/
def matZero : Nat → ℚ :=
fun _ => 0

/-- Baseline global state for concrete instances: 2x2 resolution, identity
MVP, zero model matrix, one triangle (0,1,2), all effects off except
dithering, no texture. -/
def gsBase : GS :=
{ renderWidth := 2
  renderHeight := 2
  vertices := fun _ => 0
  indices := fun n => n
  indexCount := 3
  vertexCount := 3
  mvp := matIdentity
  model := matZero
  lightDirX := 0
  lightDirY := 0
  lightDirZ := 0
  lightIntensity := 1
  ambientLight := 1 / 5
  currentTexture := -1
  enableLighting := false
  enableDithering := true
  enableTexturing := false
  enableBackfaceCulling := true
  enableVertexSnapping := false
  enableSmoothShading := false
  snapResolutionX := 320
  snapResolutionY := 240
  textures := fun _ _ => 0
  textureSizes := fun _ => 0 }

/-- Vertex buffer of the concrete dither test triangle: NDC positions
(-1,1,0), (1,1,0), (-1,-3,0) with vertex color (1,1,1,255). -/
def triVertsDither : Nat → ℚ :=
fun n =>
  if n = 0 then -1 else if n = 1 then 1
  else if n = 8 then 1 else if n = 9 then 1 else if n = 10 then 1 else if n = 11 then 255
  else if n = 12 then 1 else if n = 13 then 1
  else if n = 20 then 1 else if n = 21 then 1 else if n = 22 then 1 else if n = 23 then 255
  else if n = 24 then -1 else if n = 25 then -3
  else if n = 32 then 1 else if n = 33 then 1 else if n = 34 then 1 else if n = 35 then 255
  else 0

/-- Global state of the concrete dither test: the triangle above with
dithering enabled and every other effect off. -/
def gsDither : GS :=
{ gsBase with vertices := triVertsDither }

/-- Processed form of the first dither-test vertex on the 2x2 target. -/
def pvA : PV :=
⟨⟨0, 0, 0⟩, ⟨0, 0, 0⟩, ⟨0, 0, 0⟩, 0, 0, 0, 1, 1, 1, 5, 1⟩

/-- Processed form of the second dither-test vertex. -/
def pvB : PV :=
⟨⟨2, 0, 0⟩, ⟨0, 0, 0⟩, ⟨0, 0, 0⟩, 0, 0, 0, 1, 1, 1, 5, 1⟩

/-- Processed form of the third dither-test vertex. -/
def pvC : PV :=
⟨⟨0, 4, 0⟩, ⟨0, 0, 0⟩, ⟨0, 0, 0⟩, 0, 0, 0, 1, 1, 1, 5, 1⟩

/-- Global state holding one triangle whose first vertex has NDC depth 3. -/
def gsFarVertex : GS :=
{ gsBase with vertices := fun n => if n = 2 then 3 else 0 }

/-- Lighting state with a negative host-set ambient value. -/
def gsNegAmbient : GS :=
{ gsBase with enableLighting := true, ambientLight := -2 }

/-- Lighting state with nonnegative ambient and intensity. -/
def gsLit : GS :=
{ gsBase with enableLighting := true, ambientLight := 1 / 5, lightIntensity := 1 }

/-- Bake state with no source texture and an empty program. -/
def bakeBase : BakeGS :=
{ bakeWidth := 4
  bakeHeight := 4
  bakeSource := -1
  textures := fun _ _ => 0
  textureSizes := fun _ => 0
  program := [] }

/-- Bake state running the two-instruction program FLAT_COLOR(1,2,3,4); END. -/
def bakeFlat : BakeGS :=
{ bakeBase with program := [0, 1, 2, 3, 4, 255] }

/-- Point-batch vertex record whose z produces the fractional depth value
5/2 before the u16 cast: z = -65529/65534, color (7,0,0). -/
def vdataHalfDepth : Int → ℚ :=
fun n => if n = 2 then -65529 / 65534 else if n = 3 then 7 else 0

/-- All-zero processed vertex. -/
def pvZero : PV :=
⟨⟨0, 0, 0⟩, ⟨0, 0, 0⟩, ⟨0, 0, 0⟩, 0, 0, 0, 0, 0, 0, 0, 0⟩

/-- Concrete triangle context on a 2x2 target with zero vertices, used to
instantiate per-pixel lemmas. -/
def ctxZero : TriCtx :=
{ width := 2
  height := 2
  v0 := pvZero
  v1 := pvZero
  v2 := pvZero
  invArea := 0
  r0 := 0
  g0 := 0
  b0 := 0
  r1 := 0
  g1 := 0
  b1 := 0
  r2 := 0
  g2 := 0
  b2 := 0
  useTex := false
  texW := 0
  texH := 0
  texData := fun _ => 0 }

/-! Generic lemmas about folds, shared by several claims. -/

theorem foldl_preserve {α β : Type} (f : α → β → α) (P : α → Prop)
    (hpres : ∀ a b, P a → P (f a b)) :
    ∀ (l : List β) (a : α), P a → P (l.foldl f a)
| [], _, h => h
| b :: l, a, h => foldl_preserve f P hpres l (f a b) (hpres a b h)

theorem foldl_range_establish {α : Type} (f : α → Nat → α) (P : α → Prop) (m : Nat)
    (hest : ∀ a, P (f a m)) (hpres : ∀ a k, P a → P (f a k)) :
    ∀ (n : Nat), m < n → ∀ a, P ((List.range n).foldl f a) := by
  intro n
  induction n with
  | zero => intro h a; exact absurd h (Nat.not_lt_zero m)
  | succ n ih =>
    intro hmn a
    rw [List.range_succ, List.foldl_append, List.foldl_cons, List.foldl_nil]
    rcases Nat.lt_succ_iff_lt_or_eq.mp hmn with h | h
    · exact hpres _ _ (ih h a)
    · subst h
      exact hest _

theorem foldl_range_preserve {α : Type} (f : α → Nat → α) (P : α → Prop) :
    ∀ (n : Nat), (∀ a k, k < n → P a → P (f a k)) → ∀ a, P a → P ((List.range n).foldl f a)
| 0, _, a, h => by simpa using h
| n + 1, hpres, a, h => by
  rw [List.range_succ, List.foldl_append, List.foldl_cons, List.foldl_nil]
  exact hpres _ n (Nat.lt_succ_self n)
    (foldl_range_preserve f P n (fun a k hk => hpres a k (Nat.lt_succ_of_lt hk)) a h)

theorem rowcol_inj (w a b a2 b2 : Int) (ha : 0 ≤ a) (haw : a < w) (ha2 : 0 ≤ a2)
    (ha2w : a2 < w) (heq : b * w + a = b2 * w + a2) : a = a2 ∧ b = b2 := by
  have hw : 0 < w := lt_of_le_of_lt ha haw
  have e1 : (b * w + a) % w = a := by
    rw [add_comm, Int.add_mul_emod_self]
    exact Int.emod_eq_of_lt ha haw
  have e2 : (b2 * w + a2) % w = a2 := by
    rw [add_comm, Int.add_mul_emod_self]
    exact Int.emod_eq_of_lt ha2 ha2w
  have haa : a = a2 := by rw [← e1, ← e2, heq]
  refine ⟨haa, ?_⟩
  have hbw : b * w = b2 * w := by
    have h3 := heq
    rw [haa] at h3
    linarith
  exact mul_right_cancel₀ (ne_of_gt hw) hbw

theorem foldl_depth_le {β : Type} (f : FB → β → FB)
    (h : ∀ fb b j, (f fb b).depth j ≤ fb.depth j) :
    ∀ (l : List β) (fb : FB) (j : Nat), (l.foldl f fb).depth j ≤ fb.depth j
| [], _, _ => le_refl _
| b :: l, fb, j => le_trans (foldl_depth_le f h l (f fb b) j) (h fb b j)

/-- C4: for fixed inputs, two runs of render_triangles that differ only in
the enable_backface_culling flag produce identical pixel and depth buffers;
the render path never reads the flag, so back-facing triangles are drawn
(double-sided, with the lighting normal flip) in both runs. -/
theorem backface_flag_noninterference (sq : ℚ → ℚ) (gs : GS) (fb : FB) (b1 b2 : Bool) :
    renderTriangles sq { gs with enableBackfaceCulling := b1 } fb =
    renderTriangles sq { gs with enableBackfaceCulling := b2 } fb := by
  cases gs
  rfl

/-- Helper for C6: the per-triangle body returns the framebuffer unchanged
when any processed vertex depth is outside [-1, 1]. -/
theorem processTriangle_reject (sq : ℚ → ℚ) (gs : GS) (fb : FB) (tri : Nat × Nat × Nat)
    (h : (processVertex sq gs tri.1).depth < -1 ∨ (processVertex sq gs tri.2.1).depth < -1 ∨
         (processVertex sq gs tri.2.2).depth < -1 ∨ 1 < (processVertex sq gs tri.1).depth ∨
         1 < (processVertex sq gs tri.2.1).depth ∨ 1 < (processVertex sq gs tri.2.2).depth) :
    processTriangle sq gs fb tri = fb := by
  by_cases h1 : (processVertex sq gs tri.1).depth < -1 ∨
      (processVertex sq gs tri.2.1).depth < -1 ∨ (processVertex sq gs tri.2.2).depth < -1
  · simp [processTriangle, h1]
  · have h2 : 1 < (processVertex sq gs tri.1).depth ∨
        1 < (processVertex sq gs tri.2.1).depth ∨ 1 < (processVertex sq gs tri.2.2).depth := by
      tauto
    simp [processTriangle, h1, h2]

/-- C6: a triangle any of whose three processed vertices has NDC depth
strictly below -1 or strictly above 1 is skipped whole: rendering a triangle
list containing it yields exactly the buffers of the list with it absent. -/
theorem nearfar_reject_skips_triangle (sq : ℚ → ℚ) (gs : GS)
    (tri : Nat × Nat × Nat) (l1 l2 : List (Nat × Nat × Nat)) (fb : FB)
    (h : (processVertex sq gs tri.1).depth < -1 ∨ (processVertex sq gs tri.2.1).depth < -1 ∨
         (processVertex sq gs tri.2.2).depth < -1 ∨ 1 < (processVertex sq gs tri.1).depth ∨
         1 < (processVertex sq gs tri.2.1).depth ∨ 1 < (processVertex sq gs tri.2.2).depth) :
    renderList sq gs (l1 ++ tri :: l2) fb = renderList sq gs (l1 ++ l2) fb := by
  unfold renderList
  rw [List.foldl_append, List.foldl_append, List.foldl_cons,
    processTriangle_reject sq gs _ tri h]

/-- Witness for C6 at a concrete input: a triangle whose first vertex has
NDC depth 3 is skipped. -/
theorem nearfar_reject_witness :
    renderList sqZero gsFarVertex ([] ++ (0, 1, 2) :: []) fbFar =
    renderList sqZero gsFarVertex ([] ++ []) fbFar :=
  nearfar_reject_skips_triangle sqZero gsFarVertex (0, 1, 2) [] [] fbFar
    (Or.inr (Or.inr (Or.inr (Or.inl (by
      norm_num [processVertex, gsFarVertex, gsBase, matIdentity, matMulVec4,
        perspectiveDivide])))))

/-! Characterization of the clear loops. -/

theorem clearDepthPass_depth (pc : Nat) :
    ∀ (fb : FB) (j : Nat),
      (clearDepthPass pc fb).depth j = if j < pc then 65535 else fb.depth j := by
  induction pc with
  | zero => intro fb j; simp [clearDepthPass]
  | succ n ih =>
    intro fb j
    unfold clearDepthPass
    rw [List.range_succ, List.foldl_append, List.foldl_cons, List.foldl_nil]
    show (if j = n then 65535 else (clearDepthPass n fb).depth j) = _
    rw [ih fb j]
    by_cases hj : j = n
    · simp [hj]
    · by_cases h2 : j < n
      · simp [hj, h2, Nat.lt_succ_of_lt h2]
      · have h3 : ¬ j < n + 1 := by omega
        simp [hj, h2, h3]

theorem clearDepthPass_pixels (pc : Nat) :
    ∀ (fb : FB) (j : Nat), (clearDepthPass pc fb).pixels j = fb.pixels j := by
  induction pc with
  | zero => intro fb j; simp [clearDepthPass]
  | succ n ih =>
    intro fb j
    unfold clearDepthPass
    rw [List.range_succ, List.foldl_append, List.foldl_cons, List.foldl_nil]
    show (clearDepthPass n fb).pixels j = fb.pixels j
    exact ih fb j

theorem clearPixelPass_pixels (word pc : Nat) :
    ∀ (fb : FB) (j : Nat),
      (clearPixelPass word pc fb).pixels j = if j < pc then word else fb.pixels j := by
  induction pc with
  | zero => intro fb j; simp [clearPixelPass]
  | succ n ih =>
    intro fb j
    unfold clearPixelPass
    rw [List.range_succ, List.foldl_append, List.foldl_cons, List.foldl_nil]
    show (if j = n then word else (clearPixelPass word n fb).pixels j) = _
    rw [ih fb j]
    by_cases hj : j = n
    · simp [hj]
    · by_cases h2 : j < n
      · simp [hj, h2, Nat.lt_succ_of_lt h2]
      · have h3 : ¬ j < n + 1 := by omega
        simp [hj, h2, h3]

theorem clearPixelPass_depth (word pc : Nat) :
    ∀ (fb : FB) (j : Nat), (clearPixelPass word pc fb).depth j = fb.depth j := by
  induction pc with
  | zero => intro fb j; simp [clearPixelPass]
  | succ n ih =>
    intro fb j
    unfold clearPixelPass
    rw [List.range_succ, List.foldl_append, List.foldl_cons, List.foldl_nil]
    show (clearPixelPass word n fb).depth j = fb.depth j
    exact ih fb j

/-- C2: after clear(r, g, b) at any configured resolution, every pixel word
of the active extent is 0x00BBGGRR (alpha 0) and every active depth sample
is 0xFFFF, while every pixel and depth sample beyond the active extent is
unchanged. -/
theorem clear_active_extent (r g b : Nat) (w h : Int) (fb : FB) (j pc : Nat)
    (hr : r < 256) (hg : g < 256) (hb : b < 256)
    (hpc : pc = ((clampResolution w h).1 * (clampResolution w h).2).toNat) :
    (j < pc → (clearBuffers r g b pc fb).pixels j = b * 65536 + g * 256 + r ∧
              (clearBuffers r g b pc fb).depth j = 65535) ∧
    (pc ≤ j → (clearBuffers r g b pc fb).pixels j = fb.pixels j ∧
              (clearBuffers r g b pc fb).depth j = fb.depth j) := by
  unfold clearBuffers clearColorWord
  refine ⟨fun hj => ⟨?_, ?_⟩, fun hj => ?_⟩
  · rw [clearPixelPass_pixels]
    simp [hj]
  · rw [clearPixelPass_depth, clearDepthPass_depth]
    simp [hj]
  · have hj2 : ¬ j < pc := by omega
    refine ⟨?_, ?_⟩
    · rw [clearPixelPass_pixels]
      simp [hj2, clearDepthPass_pixels]
    · rw [clearPixelPass_depth, clearDepthPass_depth]
      simp [hj2]

/-- Witness for C2 at the concrete call clear(10, 20, 30) on a 320x240
resolution: pixel 0 becomes 0x001E140A and depth 0 becomes 0xFFFF. -/
theorem clear_active_extent_witness :
    (clearBuffers 10 20 30 76800 fbFar).pixels 0 = 1971210 ∧
    (clearBuffers 10 20 30 76800 fbFar).depth 0 = 65535 :=
  (clear_active_extent 10 20 30 320 240 fbFar 0 76800 (by decide) (by decide) (by decide)
    (by decide)).1 (by decide)

/-! Depth behaviour of the rasterizer per-pixel step and the whole render
call (claim C3). -/

theorem pixelStep_depth_le (c : TriCtx) (x y : Int) (w0 w1 w2 : ℚ) (fb : FB) (j : Nat) :
    (pixelStep c x y w0 w1 w2 fb).depth j ≤ fb.depth j := by
  by_cases hin : insideEdges w0 w1 w2
  · simp only [pixelStep, if_pos hin]
    by_cases hd : interpDepthU16 c w0 w1 w2 < fb.depth ((y * c.width + x).toNat)
    · rw [if_pos hd]
      simp only [writePix]
      by_cases hj : j = (y * c.width + x).toNat
      · subst hj
        rw [if_pos rfl]
        exact le_of_lt hd
      · rw [if_neg hj]
    · rw [if_neg hd]
  · simp only [pixelStep, if_neg hin]
    exact le_rfl

theorem pixelStep_depth_min (c : TriCtx) (x y : Int) (w0 w1 w2 : ℚ) (fb : FB)
    (hin : insideEdges w0 w1 w2) :
    (pixelStep c x y w0 w1 w2 fb).depth ((y * c.width + x).toNat) =
      min (fb.depth ((y * c.width + x).toNat)) (interpDepthU16 c w0 w1 w2) := by
  simp only [pixelStep, if_pos hin]
  by_cases hd : interpDepthU16 c w0 w1 w2 < fb.depth ((y * c.width + x).toNat)
  · rw [if_pos hd]
    simp only [writePix]
    simp only [if_true]
    exact (min_eq_right (le_of_lt hd)).symm
  · rw [if_neg hd]
    push_neg at hd
    exact (min_eq_left hd).symm

theorem pixelStep_write_gate (c : TriCtx) (x y : Int) (w0 w1 w2 : ℚ) (fb : FB) (j : Nat)
    (h : (pixelStep c x y w0 w1 w2 fb).pixels j ≠ fb.pixels j) :
    j = (y * c.width + x).toNat ∧ interpDepthU16 c w0 w1 w2 < fb.depth j := by
  by_cases hin : insideEdges w0 w1 w2
  · simp only [pixelStep, if_pos hin] at h
    by_cases hd : interpDepthU16 c w0 w1 w2 < fb.depth ((y * c.width + x).toNat)
    · rw [if_pos hd] at h
      simp only [writePix] at h
      by_cases hj : j = (y * c.width + x).toNat
      · exact ⟨hj, hj ▸ hd⟩
      · rw [if_neg hj] at h
        exact absurd rfl h
    · rw [if_neg hd] at h
      exact absurd rfl h
  · simp only [pixelStep, if_neg hin] at h
    exact absurd rfl h

theorem rasterizeTriangle_depth_le (gs : GS) (v0 v1 v2 : PV) (fb : FB) (j : Nat) :
    (rasterizeTriangle gs v0 v1 v2 fb).depth j ≤ fb.depth j := by
  simp only [rasterizeTriangle]
  split
  · exact le_rfl
  split
  · exact le_rfl
  refine foldl_depth_le _ ?_ _ fb j
  intro fbY b j'
  refine foldl_depth_le _ ?_ _ fbY j'
  intro fbX b' j''
  exact pixelStep_depth_le _ _ _ _ _ _ _ _

theorem processTriangle_depth_le (sq : ℚ → ℚ) (gs : GS) (fb : FB)
    (tri : Nat × Nat × Nat) (j : Nat) :
    (processTriangle sq gs fb tri).depth j ≤ fb.depth j := by
  simp only [processTriangle]
  split
  · exact le_rfl
  split
  · exact le_rfl
  split
  · split
    · exact rasterizeTriangle_depth_le _ _ _ _ _ _
    · exact rasterizeTriangle_depth_le _ _ _ _ _ _
  · exact rasterizeTriangle_depth_le _ _ _ _ _ _

theorem renderTriangles_depth_le (sq : ℚ → ℚ) (gs : GS) (fb : FB) (j : Nat) :
    (renderTriangles sq gs fb).depth j ≤ fb.depth j := by
  unfold renderTriangles renderList
  exact foldl_depth_le _ (fun fb' tri j' => processTriangle_depth_le sq gs fb' tri j') _ fb j

/-- C3: during render_triangles the depth at any pixel never increases; each
inside-pixel visit leaves the depth sample equal to the minimum of its prior
value and the interpolated u16 depth (so the final value is the minimum of
the prior value and all depths computed there); and a pixel color is
rewritten only at the visited index and only when the interpolated depth is
strictly below the stored depth. -/
theorem render_depth_min_invariant :
    (∀ (sq : ℚ → ℚ) (gs : GS) (fb : FB) (j : Nat),
       (renderTriangles sq gs fb).depth j ≤ fb.depth j) ∧
    (∀ (c : TriCtx) (x y : Int) (w0 w1 w2 : ℚ) (fb : FB), insideEdges w0 w1 w2 →
       (pixelStep c x y w0 w1 w2 fb).depth ((y * c.width + x).toNat) =
         min (fb.depth ((y * c.width + x).toNat)) (interpDepthU16 c w0 w1 w2)) ∧
    (∀ (c : TriCtx) (x y : Int) (w0 w1 w2 : ℚ) (fb : FB) (j : Nat),
       (pixelStep c x y w0 w1 w2 fb).pixels j ≠ fb.pixels j →
       j = (y * c.width + x).toNat ∧ interpDepthU16 c w0 w1 w2 < fb.depth j) :=
  ⟨renderTriangles_depth_le, pixelStep_depth_min, pixelStep_write_gate⟩

/-- Witness for C3 at a concrete inside pixel: the visited depth sample
becomes the minimum of the stored far value and the computed depth. -/
theorem render_depth_min_witness :
    (pixelStep ctxZero 0 0 1 1 1 fbFar).depth 0 =
      min (fbFar.depth 0) (interpDepthU16 ctxZero 1 1 1) :=
  render_depth_min_invariant.2.1 ctxZero 0 0 1 1 1 fbFar
    (Or.inl ⟨zero_le_one, zero_le_one, zero_le_one⟩)

/-! Light scalar range (claim C7). -/

/-- Counterexample to C7 as stated: with the host-set ambient_light -2 (and
lighting enabled) the precomputed light scalar of a processed vertex is -2,
outside [0, 1]; set_ambient_light performs no clamping. -/
theorem light_scalar_counterexample :
    ¬ (0 ≤ (processVertex sqZero gsNegAmbient 0).light ∧
       (processVertex sqZero gsNegAmbient 0).light ≤ 1) := by
  norm_num [processVertex, lightScalar, worldNormalAt, vnormalize, vlength, matMulDir,
    vdot, lightDirOf, gsNegAmbient, gsBase, sqZero, matZero, matMulVec4,
    perspectiveDivide, min_def, max_def]

/-- C7 (amended): whenever lighting is enabled and the host-set ambient and
light intensity are nonnegative, the precomputed light scalar lies in [0, 1]
and equals min(1, ambient + max(0, -dot(world_normal, light_dir)) *
intensity); without the nonnegativity assumptions only the upper bound
holds. -/
theorem light_scalar_range (sq : ℚ → ℚ) (gs : GS) (idx : Nat)
    (hl : gs.enableLighting = true) (ha : 0 ≤ gs.ambientLight)
    (hi : 0 ≤ gs.lightIntensity) :
    0 ≤ (processVertex sq gs idx).light ∧ (processVertex sq gs idx).light ≤ 1 ∧
    (processVertex sq gs idx).light =
      min 1 (gs.ambientLight +
        max 0 (-(vdot (worldNormalAt sq gs idx) (lightDirOf gs))) * gs.lightIntensity) := by
  have hlight : (processVertex sq gs idx).light =
      min 1 (gs.ambientLight +
        max 0 (-(vdot (worldNormalAt sq gs idx) (lightDirOf gs))) * gs.lightIntensity) := by
    show lightScalar gs (worldNormalAt sq gs idx) = _
    simp [lightScalar, hl]
  refine ⟨?_, ?_, hlight⟩
  · rw [hlight]
    exact le_min zero_le_one (add_nonneg ha (mul_nonneg (le_max_left 0 _) hi))
  · rw [hlight]
    exact min_le_left _ _

/-- Witness for C7 (amended) at a concrete lit state with ambient 1/5 and
intensity 1. -/
theorem light_scalar_range_witness :
    0 ≤ (processVertex sqZero gsLit 0).light ∧ (processVertex sqZero gsLit 0).light ≤ 1 ∧
    (processVertex sqZero gsLit 0).light =
      min 1 (gsLit.ambientLight +
        max 0 (-(vdot (worldNormalAt sqZero gsLit 0) (lightDirOf gsLit))) * gsLit.lightIntensity) :=
  light_scalar_range sqZero gsLit 0 rfl (by norm_num [gsLit, gsBase]) (by norm_num [gsLit, gsBase])

/-! Square fill of render_point (claim C9). -/

theorem squareOverlay_spec (w h cx cy half : Int) (color : Nat) (fb : FB)
    (sx sy : Int) (hsx0 : 0 ≤ sx) (hsxw : sx < w) (hsy0 : 0 ≤ sy) (hsyh : sy < h) :
    ((|sx - cx| ≤ half ∧ |sy - cy| ≤ half) →
       (squareOverlay w h cx cy half color fb).pixels ((sy * w + sx).toNat) = color ∧
       (squareOverlay w h cx cy half color fb).depth ((sy * w + sx).toNat) = 0) ∧
    (¬(|sx - cx| ≤ half ∧ |sy - cy| ≤ half) →
       (squareOverlay w h cx cy half color fb).pixels ((sy * w + sx).toNat) =
         fb.pixels ((sy * w + sx).toNat) ∧
       (squareOverlay w h cx cy half color fb).depth ((sy * w + sx).toNat) =
         fb.depth ((sy * w + sx).toNat)) := by
  have hw : 0 < w := lt_of_le_of_lt hsx0 hsxw
  constructor
  · rintro ⟨hx, hy⟩
    rw [abs_le] at hx hy
    have hb1 : (sy - cy + half).toNat < (2 * half + 1).toNat := by omega
    have hb2 : (sx - cx + half).toNat < (2 * half + 1).toNat := by omega
    unfold squareOverlay
    refine foldl_range_establish _
      (fun a => a.pixels ((sy * w + sx).toNat) = color ∧ a.depth ((sy * w + sx).toNat) = 0)
      ((sy - cy + half).toNat) ?_ ?_ _ hb1 fb
    · intro a
      refine foldl_range_establish _
        (fun a => a.pixels ((sy * w + sx).toNat) = color ∧ a.depth ((sy * w + sx).toNat) = 0)
        ((sx - cx + half).toNat) ?_ ?_ _ hb2 a
      · intro a2
        dsimp only
        have hx2 : cx + (-half + ((sx - cx + half).toNat : Int)) = sx := by omega
        have hy2 : cy + (-half + ((sy - cy + half).toNat : Int)) = sy := by omega
        simp only [hx2, hy2]
        rw [if_pos ⟨hsx0, hsxw, hsy0, hsyh⟩]
        refine ⟨?_, ?_⟩ <;> simp [writePix]
      · intro a2 k hP
        dsimp only
        split
        · refine ⟨?_, ?_⟩
          · simp only [writePix]
            split
            · rfl
            · exact hP.1
          · simp only [writePix]
            split
            · rfl
            · exact hP.2
        · exact hP
    · intro a k hP
      dsimp only
      refine foldl_preserve _
        (fun a => a.pixels ((sy * w + sx).toNat) = color ∧ a.depth ((sy * w + sx).toNat) = 0)
        ?_ _ a hP
      intro a2 k2 hP2
      dsimp only
      split
      · refine ⟨?_, ?_⟩
        · simp only [writePix]
          split
          · rfl
          · exact hP2.1
        · simp only [writePix]
          split
          · rfl
          · exact hP2.2
      · exact hP2
  · intro hne
    unfold squareOverlay
    refine foldl_range_preserve _
      (fun a => a.pixels ((sy * w + sx).toNat) = fb.pixels ((sy * w + sx).toNat) ∧
        a.depth ((sy * w + sx).toNat) = fb.depth ((sy * w + sx).toNat)) _ ?_ fb ⟨rfl, rfl⟩
    intro a jy hjy hP
    dsimp only
    refine foldl_range_preserve _
      (fun a => a.pixels ((sy * w + sx).toNat) = fb.pixels ((sy * w + sx).toNat) ∧
        a.depth ((sy * w + sx).toNat) = fb.depth ((sy * w + sx).toNat)) _ ?_ a hP
    intro a2 jx hjx hP2
    dsimp only
    split
    next hg =>
      obtain ⟨hg1, hg2, hg3, hg4⟩ := hg
      have hne2 : ((cy + (-half + (jy : Int))) * w + (cx + (-half + (jx : Int)))).toNat ≠
          (sy * w + sx).toNat := by
        intro he
        have hnn1 : (0 : Int) ≤ (cy + (-half + (jy : Int))) * w + (cx + (-half + (jx : Int))) :=
          add_nonneg (mul_nonneg hg3 hw.le) hg1
        have hnn2 : (0 : Int) ≤ sy * w + sx := add_nonneg (mul_nonneg hsy0 hw.le) hsx0
        have hEq : (cy + (-half + (jy : Int))) * w + (cx + (-half + (jx : Int))) =
            sy * w + sx := by
          rw [← Int.toNat_of_nonneg hnn1, ← Int.toNat_of_nonneg hnn2, he]
        obtain ⟨hxe, hye⟩ := rowcol_inj w _ _ _ _ hg1 hg2 hsx0 hsxw hEq
        refine hne ⟨?_, ?_⟩
        · rw [← hxe]
          have h4 : cx + (-half + (jx : Int)) - cx = -half + (jx : Int) := by ring
          rw [h4, abs_le]
          omega
        · rw [← hye]
          have h4 : cy + (-half + (jy : Int)) - cy = -half + (jy : Int) := by ring
          rw [h4, abs_le]
          omega
      refine ⟨?_, ?_⟩
      · simp only [writePix]
        rw [if_neg (fun hc => hne2 hc.symm)]
        exact hP2.1
      · simp only [writePix]
        rw [if_neg (fun hc => hne2 hc.symm)]
        exact hP2.2
    next => exact hP2

/-- C9 (amended): render_point(x, y, color, size) writes the given color
unconditionally (no depth test) and forces depth 0 at exactly the in-viewport
pixels within Chebyshev distance size/2 (integer division) of the truncated
center — a square of side 2*(size/2)+1, which is size+1 pixels wide for even
size, not size; all other pixels are untouched. -/
theorem render_point_square (w h : Int) (x y : ℚ) (color : Nat) (size : Int) (fb : FB)
    (sx sy : Int) (hsx0 : 0 ≤ sx) (hsxw : sx < w) (hsy0 : 0 ≤ sy) (hsyh : sy < h) :
    ((|sx - ftrunc x| ≤ size.tdiv 2 ∧ |sy - ftrunc y| ≤ size.tdiv 2) →
       (renderPoint w h x y color size fb).pixels ((sy * w + sx).toNat) = color ∧
       (renderPoint w h x y color size fb).depth ((sy * w + sx).toNat) = 0) ∧
    (¬(|sx - ftrunc x| ≤ size.tdiv 2 ∧ |sy - ftrunc y| ≤ size.tdiv 2) →
       (renderPoint w h x y color size fb).pixels ((sy * w + sx).toNat) =
         fb.pixels ((sy * w + sx).toNat) ∧
       (renderPoint w h x y color size fb).depth ((sy * w + sx).toNat) =
         fb.depth ((sy * w + sx).toNat)) :=
  squareOverlay_spec w h (ftrunc x) (ftrunc y) (size.tdiv 2) color fb sx sy hsx0 hsxw hsy0 hsyh

/-- Counterexample to C9 as stated: render_point with size 2 centered at
(8, 8) on a 16x16 target writes both pixel (7, 7) (index 119) and pixel
(9, 9) (index 153); the two written pixels are 2 apart in each axis, which no
2x2 (size x size) square can contain — the filled square is 3x3. -/
theorem render_point_counterexample :
    (renderPoint 16 16 8 8 5 2 fbFar).pixels 119 = 5 ∧
    (renderPoint 16 16 8 8 5 2 fbFar).pixels 153 = 5 ∧
    fbFar.pixels 119 = 0 ∧ fbFar.pixels 153 = 0 := by
  have h8 : ftrunc (8 : ℚ) = 8 := by norm_num [ftrunc]
  simp only [renderPoint, h8]
  decide

/-- Witness for C9 (amended) at a concrete input: size 3 centered at (8, 8),
pixel (9, 9) lies in the square and receives the color with depth 0. -/
theorem render_point_square_witness :
    (renderPoint 16 16 8 8 5 3 fbFar).pixels (((9 : Int) * 16 + 9).toNat) = 5 ∧
    (renderPoint 16 16 8 8 5 3 fbFar).depth (((9 : Int) * 16 + 9).toNat) = 0 :=
  (render_point_square 16 16 8 8 5 3 fbFar 9 9 (by decide) (by decide) (by decide)
    (by decide)).1 (by
      rw [show ftrunc (8 : ℚ) = 8 from by norm_num [ftrunc]]
      decide)

/-! Point-batch behaviour (claim C8). -/

theorem squareDepthTested_gate (w h cx cy half : Int) (color dv : Nat) (fb : FB) (j : Nat) :
    ((squareDepthTested w h cx cy half color dv fb).depth j = fb.depth j ∧
     (squareDepthTested w h cx cy half color dv fb).pixels j = fb.pixels j) ∨
    ((squareDepthTested w h cx cy half color dv fb).depth j = dv ∧
     (squareDepthTested w h cx cy half color dv fb).pixels j = color ∧ dv < fb.depth j) := by
  unfold squareDepthTested
  refine foldl_preserve _
    (fun a => (a.depth j = fb.depth j ∧ a.pixels j = fb.pixels j) ∨
      (a.depth j = dv ∧ a.pixels j = color ∧ dv < fb.depth j)) ?_ _ fb (Or.inl ⟨rfl, rfl⟩)
  intro a jy hP
  dsimp only
  refine foldl_preserve _
    (fun a => (a.depth j = fb.depth j ∧ a.pixels j = fb.pixels j) ∨
      (a.depth j = dv ∧ a.pixels j = color ∧ dv < fb.depth j)) ?_ _ a hP
  intro a2 jx hP2
  dsimp only
  split
  · split
    next hd =>
      by_cases hji : j = ((cy + (-half + (jy : Int))) * w + (cx + (-half + (jx : Int)))).toNat
      · rcases hP2 with h2 | h2
        · refine Or.inr ⟨by simp [writePix, hji], by simp [writePix, hji], ?_⟩
          rw [← h2.1, hji]
          exact hd
        · exact Or.inr ⟨by simp [writePix, hji], by simp [writePix, hji], h2.2.2⟩
      · rcases hP2 with h2 | h2
        · exact Or.inl ⟨by simp [writePix, hji, h2.1], by simp [writePix, hji, h2.2]⟩
        · exact Or.inr ⟨by simp [writePix, hji, h2.1], by simp [writePix, hji, h2.2.1], h2.2.2⟩
    next => exact hP2
  · exact hP2

theorem renderOnePoint_gate (w h : Int) (mvp : Nat → ℚ) (size : Int) (vdata : Int → ℚ)
    (idx : Int) (fb : FB) (j : Nat) :
    ((renderOnePoint w h mvp size vdata idx fb).depth j = fb.depth j ∧
     (renderOnePoint w h mvp size vdata idx fb).pixels j = fb.pixels j) ∨
    ((renderOnePoint w h mvp size vdata idx fb).depth j =
        pointDepthVal (pointNdc mvp vdata idx).z ∧
     pointDepthVal (pointNdc mvp vdata idx).z < fb.depth j) := by
  unfold renderOnePoint
  by_cases hw : (pointClip mvp vdata idx).w < 1 / 10
  · rw [if_pos hw]
    exact Or.inl ⟨rfl, rfl⟩
  · rw [if_neg hw]
    by_cases hn : (pointNdc mvp vdata idx).x < -1 ∨ 1 < (pointNdc mvp vdata idx).x ∨
        (pointNdc mvp vdata idx).y < -1 ∨ 1 < (pointNdc mvp vdata idx).y
    · rw [if_pos hn]
      exact Or.inl ⟨rfl, rfl⟩
    · rw [if_neg hn]
      rcases squareDepthTested_gate w h (ftrunc (((pointNdc mvp vdata idx).x + 1) * (1 / 2) * (w : ℚ)))
        (ftrunc ((1 - (pointNdc mvp vdata idx).y) * (1 / 2) * (h : ℚ))) (size.tdiv 2)
        (4278190080 + u8ofQ (vdata (idx * 6 + 5)) * 65536 + u8ofQ (vdata (idx * 6 + 4)) * 256 +
          u8ofQ (vdata (idx * 6 + 3)))
        (pointDepthVal (pointNdc mvp vdata idx).z) fb j with h2 | h2
      · exact Or.inl ⟨h2.1, h2.2⟩
      · exact Or.inr ⟨h2.1, h2.2.2⟩

/-- C8 (amended): render_points_batch skips points with clip.w < 0.1 and
points whose NDC x or y is outside [-1, 1]; a drawn point's depth value is
the u16 truncation (toward zero, not rounding) of (ndc.z + 1) * 0.5 * 65534
minus 1, clamped at 0; a depth or pixel write happens only where that depth
strictly beats the stored depth. -/
theorem points_batch_contract :
    (∀ (w h : Int) (mvp : Nat → ℚ) (size : Int) (vdata : Int → ℚ) (idx : Int) (fb : FB),
       (pointClip mvp vdata idx).w < 1 / 10 →
       renderOnePoint w h mvp size vdata idx fb = fb) ∧
    (∀ (w h : Int) (mvp : Nat → ℚ) (size : Int) (vdata : Int → ℚ) (idx : Int) (fb : FB),
       ¬ (pointClip mvp vdata idx).w < 1 / 10 →
       ((pointNdc mvp vdata idx).x < -1 ∨ 1 < (pointNdc mvp vdata idx).x ∨
        (pointNdc mvp vdata idx).y < -1 ∨ 1 < (pointNdc mvp vdata idx).y) →
       renderOnePoint w h mvp size vdata idx fb = fb) ∧
    (∀ z : ℚ, pointDepthVal z = u16ofQ ((z + 1) * (1 / 2) * 65534) - 1) ∧
    (∀ (w h : Int) (mvp : Nat → ℚ) (size : Int) (vdata : Int → ℚ) (idx : Int) (fb : FB)
       (j : Nat),
       (renderOnePoint w h mvp size vdata idx fb).depth j ≠ fb.depth j →
       (renderOnePoint w h mvp size vdata idx fb).depth j =
         pointDepthVal (pointNdc mvp vdata idx).z ∧
       pointDepthVal (pointNdc mvp vdata idx).z < fb.depth j) ∧
    (∀ (w h : Int) (mvp : Nat → ℚ) (size : Int) (vdata : Int → ℚ) (idx : Int) (fb : FB)
       (j : Nat),
       (renderOnePoint w h mvp size vdata idx fb).pixels j ≠ fb.pixels j →
       pointDepthVal (pointNdc mvp vdata idx).z < fb.depth j) := by
  refine ⟨?_, ?_, ?_, ?_, ?_⟩
  · intro w h mvp size vdata idx fb hw
    unfold renderOnePoint
    rw [if_pos hw]
  · intro w h mvp size vdata idx fb hw hn
    unfold renderOnePoint
    rw [if_neg hw, if_pos hn]
  · intro z
    simp only [pointDepthVal]
    split <;> omega
  · intro w h mvp size vdata idx fb j hne
    rcases renderOnePoint_gate w h mvp size vdata idx fb j with h2 | h2
    · exact absurd h2.1 hne
    · exact h2
  · intro w h mvp size vdata idx fb j hne
    rcases renderOnePoint_gate w h mvp size vdata idx fb j with h2 | h2
    · exact absurd h2.2 hne
    · exact h2.2

/-- Witness for C8 (amended) at a concrete input: the all-zero MVP gives
clip.w = 0 < 0.1, so the point is skipped. -/
theorem points_batch_witness :
    renderOnePoint 16 16 matZero 1 vdataHalfDepth 0 fbFar = fbFar :=
  points_batch_contract.1 16 16 matZero 1 vdataHalfDepth 0 fbFar
    (by norm_num [pointClip, matMulVec4, matZero])

/-- Counterexample to C8 as stated: the point with ndc.z = -65529/65534 maps
to (ndc.z + 1) * 0.5 * 65534 = 5/2; the code truncates to 2 and stores depth
2 - 1 = 1, while the spec's round(5/2) - 1 = 2; so the written depth value
differs from the spec formula. -/
theorem points_batch_counterexample :
    (renderPointsBatch 16 16 vdataHalfDepth (fun _ => 0) 1 matIdentity 1 fbFar).depth 136 = 1 ∧
    specPointDepth (-65529 / 65534) = 2 := by
  constructor
  · norm_num [renderPointsBatch, renderOnePoint, pointClip, pointNdc, matMulVec4, matIdentity,
      vdataHalfDepth, pointDepthVal, u16ofQ, u8ofQ, ftrunc, squareDepthTested, writePix, fbFar,
      List.range_succ, show (1 : Int).tdiv 2 = 0 from by decide]
    decide
  · norm_num [specPointDepth, round_eq, max_def]
    decide

/-! Baker interpreter behaviour (claims C5 and C10). -/

theorem runBake_flat_cons (sq : ℚ → ℚ) (srcOn : Bool) (srcW srcH : Int)
    (srcTex : Nat → Nat) (u v : ℚ) (r g b a : Nat) (rest : List Nat) (s : List BCol) :
    runBake sq srcOn srcW srcH srcTex u v (0 :: r :: g :: b :: a :: rest) s =
    runBake sq srcOn srcW srcH srcTex u v rest
      (s ++ [⟨(r : Int), (g : Int), (b : Int), (a : Int)⟩]) := by
  rw [runBake]

theorem runBake_end (sq : ℚ → ℚ) (srcOn : Bool) (srcW srcH : Int)
    (srcTex : Nat → Nat) (u v : ℚ) (rest : List Nat) (s : List BCol) :
    runBake sq srcOn srcW srcH srcTex u v (255 :: rest) s = s := by
  rw [runBake]
  all_goals decide

theorem runBake_flatProg (sq : ℚ → ℚ) (srcOn : Bool) (srcW srcH : Int)
    (srcTex : Nat → Nat) (u v : ℚ) :
    ∀ (cs : List (Nat × Nat × Nat × Nat)) (rest : List Nat) (s : List BCol),
      runBake sq srcOn srcW srcH srcTex u v (flatColorProg cs ++ rest) s =
      runBake sq srcOn srcW srcH srcTex u v rest (s ++ cs.map bcolOfBytes)
| [], rest, s => by simp [flatColorProg]
| c :: cs, rest, s => by
  show runBake sq srcOn srcW srcH srcTex u v
      (0 :: c.1 :: c.2.1 :: c.2.2.1 :: c.2.2.2 :: (flatColorProg cs ++ rest)) s = _
  refine (runBake_flat_cons sq srcOn srcW srcH srcTex u v c.1 c.2.1 c.2.2.1 c.2.2.2
    (flatColorProg cs ++ rest) s).trans ?_
  refine (runBake_flatProg sq srcOn srcW srcH srcTex u v cs rest _).trans ?_
  have hl : (s ++ [(⟨(c.1 : Int), (c.2.1 : Int), (c.2.2.1 : Int), (c.2.2.2 : Int)⟩ : BCol)]) ++
      cs.map bcolOfBytes = s ++ (c :: cs).map bcolOfBytes := by
    simp [bcolOfBytes]
  rw [hl]

/-- C5: for every color and every bake output size, running the program
FLAT_COLOR(r, g, b, a); END yields exactly (r, g, b, a) at every output
pixel. -/
theorem bake_flat_color_constant (sq : ℚ → ℚ) (b : BakeGS) (x y : Nat)
    (r g bb a : Nat) (hr : r < 256) (hg : g < 256) (hbb : bb < 256) (ha : a < 256)
    (hprog : b.program = [0, r, g, bb, a, 255]) :
    bakeMaterialPixel sq b x y = (r, g, bb, a) := by
  simp only [bakeMaterialPixel, bakeStack]
  rw [hprog, runBake_flat_cons, runBake_end]
  simp only [List.nil_append, bakePixelOut, byteOfInt, Prod.mk.injEq]
  omega

/-- Witness for C5 at the concrete program FLAT_COLOR(1,2,3,4); END. -/
theorem bake_flat_color_witness :
    bakeMaterialPixel sqZero bakeFlat 0 0 = (1, 2, 3, 4) :=
  bake_flat_color_constant sqZero bakeFlat 0 0 1 2 3 4 (by decide) (by decide) (by decide)
    (by decide) rfl

/-- C10: a bake program that pushes several values and then reaches END
writes stack entry 0 — the bottom of the stack, i.e. the FIRST value pushed,
not the top; the magenta (255, 0, 255, 255) fallback is produced only by an
empty stack at END. -/
theorem bake_end_bottom_of_stack (sq : ℚ → ℚ) (srcOn : Bool) (srcW srcH : Int)
    (srcTex : Nat → Nat) (u v : ℚ) (c : Nat × Nat × Nat × Nat)
    (cs : List (Nat × Nat × Nat × Nat))
    (hr : c.1 < 256) (hg : c.2.1 < 256) (hb : c.2.2.1 < 256) (ha : c.2.2.2 < 256) :
    runBake sq srcOn srcW srcH srcTex u v (flatColorProg (c :: cs) ++ [255]) [] =
      (c :: cs).map bcolOfBytes ∧
    bakePixelOut (runBake sq srcOn srcW srcH srcTex u v (flatColorProg (c :: cs) ++ [255]) []) =
      (c.1, c.2.1, c.2.2.1, c.2.2.2) ∧
    bakePixelOut (runBake sq srcOn srcW srcH srcTex u v [255] []) = (255, 0, 255, 255) := by
  have hrun : runBake sq srcOn srcW srcH srcTex u v (flatColorProg (c :: cs) ++ [255]) [] =
      (c :: cs).map bcolOfBytes := by
    rw [runBake_flatProg, runBake_end]
    simp
  refine ⟨hrun, ?_, ?_⟩
  · rw [hrun]
    simp only [List.map_cons, bakePixelOut, bcolOfBytes, Prod.mk.injEq, byteOfInt]
    omega
  · rw [runBake_end]
    rfl

/-- Witness for C10: two FLAT_COLOR pushes then END at a concrete input:
the output is the first pushed color (1, 2, 3, 4), not the top (9, 8, 7, 6). -/
theorem bake_end_bottom_witness :
    bakePixelOut (runBake sqZero false 0 0 (fun _ => 0) 0 0
      (flatColorProg ((1, 2, 3, 4) :: [(9, 8, 7, 6)]) ++ [255]) []) = (1, 2, 3, 4) :=
  (bake_end_bottom_of_stack sqZero false 0 0 (fun _ => 0) 0 0 (1, 2, 3, 4) [(9, 8, 7, 6)]
    (by decide) (by decide) (by decide) (by decide)).2.1

/-! Missing dither quantization (claim C1). -/

set_option maxHeartbeats 1000000 in
theorem processVertex_gsDither_0 : processVertex sqZero gsDither 0 = pvA := by
  norm_num [processVertex, gsDither, gsBase, triVertsDither, matIdentity, matZero,
    matMulVec4, matMulDir, perspectiveDivide, vnormalize, vlength, sqZero, worldNormalAt,
    lightScalar, floorQ, min_def, max_def, pvA, PV.mk.injEq, Vec3.mk.injEq]

set_option maxHeartbeats 1000000 in
theorem processVertex_gsDither_1 : processVertex sqZero gsDither 1 = pvB := by
  norm_num [processVertex, gsDither, gsBase, triVertsDither, matIdentity, matZero,
    matMulVec4, matMulDir, perspectiveDivide, vnormalize, vlength, sqZero, worldNormalAt,
    lightScalar, floorQ, min_def, max_def, pvB, PV.mk.injEq, Vec3.mk.injEq]

set_option maxHeartbeats 1000000 in
theorem processVertex_gsDither_2 : processVertex sqZero gsDither 2 = pvC := by
  norm_num [processVertex, gsDither, gsBase, triVertsDither, matIdentity, matZero,
    matMulVec4, matMulDir, perspectiveDivide, vnormalize, vlength, sqZero, worldNormalAt,
    lightScalar, floorQ, min_def, max_def, pvC, PV.mk.injEq, Vec3.mk.injEq]

set_option maxHeartbeats 1000000 in
theorem renderTriangles_gsDither :
    renderTriangles sqZero gsDither fbFar = rasterizeTriangle gsDither pvA pvB pvC fbFar := by
  norm_num [renderTriangles, renderList, triangleOfIndex, processTriangle,
    processVertex_gsDither_0, processVertex_gsDither_1, processVertex_gsDither_2,
    List.range_succ,
    show gsDither.indexCount = 3 from rfl,
    show gsDither.indices 0 = 0 from rfl,
    show gsDither.indices 1 = 1 from rfl,
    show gsDither.indices 2 = 2 from rfl,
    show gsDither.enableLighting = false from rfl,
    show pvA.depth = 0 from rfl,
    show pvB.depth = 0 from rfl,
    show pvC.depth = 0 from rfl]

set_option maxHeartbeats 3000000 in
theorem rasterizeTriangle_gsDither :
    (rasterizeTriangle gsDither pvA pvB pvC fbFar).pixels 0 = 4278255873 := by
  norm_num [rasterizeTriangle, pvA, pvB, pvC, gsDither, gsBase, pixelStep, insideEdges,
    interpDepthU16, flatColorWord, packWord, u16ofQ, u32ofQ, ftrunc, writePix, min3Q,
    max3Q, min3I, max3I, fbFar, List.range_succ, min_def, max_def,
    show ((2 : Int).toNat) = 2 from by decide,
    show ((0 : Int).toNat) = 0 from by decide,
    show ((1 : Int).toNat) = 1 from by decide,
    show ((32767 : Int) % 65536) = 32767 from by decide,
    show ((32767 : Int).toNat) = 32767 from by decide]

/-- C1 fails on this code: with dithering enabled, the rasterizer writes the
pixel word 0xFF010101 for a flat (1, 1, 1) triangle color; its channels have
low three bits 001, not the 0xF8-masked value, because rasterize_triangle
computes the dither row pointer but never applies the quantization.  The
spec's own dither formula maps channel 1 at pixel (0, 0) to 0. -/
theorem dither_quantization_missing :
    gsDither.enableDithering = true ∧
    (renderTriangles sqZero gsDither fbFar).pixels 0 = 4278255873 ∧
    4278255873 % 8 = 1 ∧
    specDitherChannel 1 0 0 = 0 := by
  refine ⟨rfl, ?_, by decide, by decide⟩
  rw [renderTriangles_gsDither, rasterizeTriangle_gsDither]

end PS1
